import Mathlib

/-!
Verification of the DjangoFlix video publication core
(`src/videos/models.py`, `src/videos/admin.py`) against its
natural-language specification.

Shallow embedding conventions:
* timestamps are `Int` seconds; a nullable timestamp column is
  `Option Int`;
* a Django queryset is a `List Video`; `QuerySet.filter` is
  `List.filter`; SQL three-valued logic on a NULL column means a
  comparison `publish_timestamp <= now` is not satisfied when the
  column is NULL, so rows with a `none` timestamp are excluded by
  the filter;
* `timezone.now()` is passed explicitly as a `now : Int` argument to
  every function that samples the clock.
-/

/-- Modelled from the spec: the enumeration `PublishStateOptions`
lives in `djangoflix/db/models.py`, which is not under `src/`; the
spec gives the state set as `{DRAFT, PUBLISH}` with default `DRAFT`. -/
inductive PublishStateOptions where
  | DRAFT
  | PUBLISH
deriving DecidableEq, Repr

/-- The persisted fields of `Video` (`src/videos/models.py`, class
`Video`).  `created` and `updated` are the auto timestamps; `slug`,
`description` and `publish_timestamp` are nullable. -/
structure Video where
  id : Nat
  title : String
  description : Option String
  slug : Option String
  video_id : String
  active : Bool
  created : Int
  updated : Int
  state : PublishStateOptions
  publish_timestamp : Option Int
deriving DecidableEq, Repr

/-- Row predicate of `VideoQuerySet.published` (models.py lines 18-24):
`filter(state=PublishStateOptions.PUBLISH, publish_timestamp__lte=now,
active=True)`.  A NULL `publish_timestamp` fails the SQL `<=`
comparison, hence the `none` branch is `false`. -/
def publishedRowPred (now : Int) (v : Video) : Bool :=
  v.state == PublishStateOptions.PUBLISH &&
  (match v.publish_timestamp with
   | none => false
   | some ts => ts ≤ now) &&
  v.active

/-- `VideoQuerySet.published` (models.py lines 18-24) applied to a
queryset: keep exactly the rows matching the filter. -/
def VideoQuerySet.published (now : Int) (qs : List Video) : List Video :=
  qs.filter (publishedRowPred now)

/-- `Video.is_published` property (models.py lines 107-116), with the
internal `timezone.now()` call made an explicit `now` argument:
sequential early returns on `active`, `state`, and the timestamp. -/
def Video.is_published (v : Video) (now : Int) : Bool :=
  if !v.active then false
  else if v.state != PublishStateOptions.PUBLISH then false
  else
    match v.publish_timestamp with
    | none => false
    | some ts => ts ≤ now

/-- `Video.get_video_id` (models.py lines 103-105):
`self.video_id if self.is_published else None`. -/
def Video.get_video_id (v : Video) (now : Int) : Option String :=
  if v.is_published now then some v.video_id else none

/-- The validation error taxonomy of the spec (§7); `Video.clean`
raises the `MissingPublishTimestamp` case as a `ValidationError`. -/
inductive ValidationError where
  | MissingPublishTimestamp
deriving DecidableEq, Repr

/-- `Video.clean` (models.py lines 95-101): raises `ValidationError`
iff `state == PUBLISH and not publish_timestamp` (a datetime is never
falsy in Python, so `not self.publish_timestamp` means the field is
`None`). -/
def Video.clean (v : Video) : Except ValidationError Unit :=
  if v.state == PublishStateOptions.PUBLISH && v.publish_timestamp.isNone then
    Except.error ValidationError.MissingPublishTimestamp
  else
    Except.ok ()

/-- A character counts as alphanumeric for slug derivation. -/
def isAlnumChar (c : Char) : Bool := c.isAlpha || c.isDigit

/-- Accumulator pass splitting a character list into its maximal runs
of alphanumeric characters; `acc` holds the current run reversed. -/
def alnumRunsGo (acc : List Char) : List Char → List (List Char)
  | [] => if acc.isEmpty then [] else [acc.reverse]
  | c :: cs =>
    if isAlnumChar c then alnumRunsGo (c :: acc) cs
    else if acc.isEmpty then alnumRunsGo [] cs
    else acc.reverse :: alnumRunsGo [] cs

/-- Maximal alphanumeric runs of a character list. -/
def alnumRuns (l : List Char) : List (List Char) := alnumRunsGo [] l

/-- Modelled from the spec: the slug derivation used by
`slugify_pre_save` (in `djangoflix/db/receivers.py`, not under
`src/`) — lowercase the title, collapse each non-alphanumeric run
to a single separator, trim leading/trailing separators (§4.2). -/
def slugify (t : String) : String :=
  String.mk (List.intercalate ['-'] (alnumRuns (t.data.map Char.toLower)))

/-- Modelled from the spec: `assignIfMissing` (§4.2), the behaviour of
the `slugify_pre_save` receiver (not under `src/`): if `slug` is null
or empty, set it to the slug derived from `title`; otherwise leave the
record untouched. -/
def assignIfMissing (v : Video) : Video :=
  match v.slug with
  | none => { v with slug := some (slugify v.title) }
  | some s => if s = "" then { v with slug := some (slugify v.title) } else v

/-- The persistence engine committing one record: replace the stored
row with the same `id` if any, else append (spec §1: the engine
provides create/update; the core only hands it a validated record). -/
def commit (db : List Video) (v : Video) : List Video :=
  db.filter (fun w => w.id ≠ v.id) ++ [v]

/-- Modelled from the spec: the write path (§2 data flow) — a
create/update "runs Slug Assigner then Publish State Machine
validation before commit"; a failing validation "aborts the write
with no partial effect".  The validation is `Video.clean` from
models.py.  Returns the database after the write attempt together
with the validation error, if any. -/
def save (db : List Video) (v : Video) : List Video × Option ValidationError :=
  let v1 := assignIfMissing v
  match v1.clean with
  | Except.error e => (db, some e)
  | Except.ok _ => (commit db v1, none)

/-- The committed database states reachable by the write path: the
empty store, plus anything a `save` (create or update) yields. -/
inductive Reachable : List Video → Prop
  | empty : Reachable []
  | save_step (db : List Video) (v : Video) (db' : List Video)
      (hdb : Reachable db) (hs : (save db v).1 = db') : Reachable db'

/-- `VideoPublishedProxyAdmin.unpublish_selected` (admin.py lines
94-102): `queryset.update(active=False)` sets `active = False` on
every row of the queryset and returns the number of rows affected. -/
def unpublish_selected (qs : List Video) : List Video × Nat :=
  (qs.map (fun v => { v with active := false }), qs.length)

/-- `VideoPublishedProxy.get_queryset` (models.py lines 139-142):
`super().get_queryset().published()`.  Note this method is defined on
the proxy *model* class; Django's admin never calls a model-level
`get_queryset`, so it is dead code — kept here because the claims
cite it. -/
def VideoPublishedProxy.get_queryset (now : Int) (qs : List Video) : List Video :=
  VideoQuerySet.published now qs

/-- `VideoPublishedProxyAdmin.get_queryset` (admin.py lines 77-79):
`super().get_queryset(request).filter(active=True)`.  The `super()`
is `ModelAdmin.get_queryset`, which returns the model's default
manager queryset — for the proxy that is the inherited
`VideoManager`, i.e. ALL videos — so the composed queryset is the
whole table filtered on `active=True` only. -/
def VideoPublishedProxyAdmin.get_queryset (qs : List Video) : List Video :=
  qs.filter (fun v => v.active)

/-- Fields that appear in the `Meta.ordering` declarations. -/
inductive OrderField where
  | publish_timestamp
  | created
deriving DecidableEq, Repr

/-- One `Meta.ordering` entry: a field and whether it is prefixed
with `-` (descending). -/
structure OrderTerm where
  field : OrderField
  descending : Bool
deriving DecidableEq, Repr

/-- Column value used by an ordering term; `created` is a non-null
column, `publish_timestamp` is nullable. -/
def orderFieldVal : OrderField → Video → Option Int
  | OrderField.publish_timestamp, v => v.publish_timestamp
  | OrderField.created, v => some v.created

/-- Ascending three-way comparison of integers (SQL `ORDER BY` on a
numeric column). -/
def intCompare (a b : Int) : Ordering :=
  if a < b then Ordering.lt else if b < a then Ordering.gt else Ordering.eq

/-- Ascending comparison of a nullable column, with NULL sorting
below every value (SQLite collation, the project default). -/
def optIntCompare : Option Int → Option Int → Ordering
  | none, none => Ordering.eq
  | none, some _ => Ordering.lt
  | some _, none => Ordering.gt
  | some a, some b => intCompare a b

/-- Interpret a `Meta.ordering` list as a lexicographic comparison:
earlier fields dominate, a `-` prefix reverses the field comparison. -/
def compareBy : List OrderTerm → Video → Video → Ordering
  | [], _, _ => Ordering.eq
  | t :: ts, a, b =>
    let c0 := optIntCompare (orderFieldVal t.field a) (orderFieldVal t.field b)
    let c := if t.descending then c0.swap else c0
    if c = Ordering.eq then compareBy ts a b else c

/-- `Video.Meta.ordering` (models.py line 84):
`ordering = ['-publish_timestamp', '-created']`. -/
def videoMetaOrdering : List OrderTerm :=
  [⟨OrderField.publish_timestamp, true⟩, ⟨OrderField.created, true⟩]

/-- `VideoAllProxy.Meta.ordering` (models.py line 128):
`ordering = ['-created']`. -/
def videoAllProxyOrdering : List OrderTerm :=
  [⟨OrderField.created, true⟩]

/-- `VideoPublishedProxy.Meta.ordering` (models.py line 137):
`ordering = ['-publish_timestamp']`. -/
def videoPublishedProxyOrdering : List OrderTerm :=
  [⟨OrderField.publish_timestamp, true⟩]

/-- Sample record: published, active, publish time 50. -/
def vidPub : Video :=
  { id := 1, title := "Intro", description := none, slug := some "intro",
    video_id := "abc123", active := true, created := 10, updated := 20,
    state := PublishStateOptions.PUBLISH, publish_timestamp := some 50 }

/-- Sample record: an active draft with no publish time. -/
def vidDraft : Video :=
  { vidPub with
    id := 2,
    slug := some "draft",
    video_id := "d1",
    state := PublishStateOptions.DRAFT,
    publish_timestamp := none }

/-- Sample record: published in the past but deactivated
(the kill-switch scenario). -/
def vidKill : Video :=
  { vidPub with
    id := 3,
    slug := some "kill",
    video_id := "k1",
    active := false }

/-- Sample record: no slug yet, punctuated title (spec §8 scenario). -/
def vidNoSlug : Video :=
  { vidPub with
    id := 4,
    title := "Hello, World! 2024",
    slug := none,
    video_id := "h1" }

/-! ## Theorems -/

/-- C1: for every record and fixed `now`, the queryset filter
`published(now)` and the instance property `is_published` agree: the
row predicate of `VideoQuerySet.published` returns exactly the value
of `Video.is_published`, and membership in the filtered queryset is
membership plus visibility. -/
theorem published_filter_matches_is_published (v : Video) (now : Int) :
    publishedRowPred now v = v.is_published now ∧
    (∀ qs : List Video,
      v ∈ VideoQuerySet.published now qs ↔ v ∈ qs ∧ v.is_published now = true) := by
  have hrow : publishedRowPred now v = v.is_published now := by
    unfold publishedRowPred Video.is_published
    cases hac : v.active <;> cases hs : v.state <;>
      cases hpt : v.publish_timestamp <;> simp [hs]
  refine ⟨hrow, fun qs => ?_⟩
  unfold VideoQuerySet.published
  rw [List.mem_filter, hrow]

/-- C1 witness: the equivalence evaluated on a concrete published
record. -/
theorem published_filter_matches_is_published_witness :
    vidPub ∈ VideoQuerySet.published 100 [vidPub] ∧ vidPub.is_published 100 = true :=
  ⟨((published_filter_matches_is_published vidPub 100).2 [vidPub]).2
      ⟨List.mem_singleton.2 rfl, by decide⟩,
    by decide⟩

/-- C2: `is_published` is true exactly when all four conjuncts hold
(`active`, `state == PUBLISH`, timestamp present, timestamp `<= now`),
and `active = false` alone forces invisibility (kill-switch). -/
theorem is_published_characterisation (v : Video) (now : Int) :
    (v.is_published now = true ↔
      v.active = true ∧ v.state = PublishStateOptions.PUBLISH ∧
      ∃ ts, v.publish_timestamp = some ts ∧ ts ≤ now) ∧
    (v.active = false → v.is_published now = false) := by
  unfold Video.is_published
  cases hac : v.active <;> cases hs : v.state <;>
    cases hpt : v.publish_timestamp <;> simp [hs, hpt]

/-- C2 witness: the kill-switch record (published in the past,
`active = false`) is not visible. -/
theorem is_published_characterisation_witness :
    vidKill.is_published 100 = false :=
  (is_published_characterisation vidKill 100).2 rfl

/-- C7: a published, active record whose publish time is one hour in
the future is not visible now, and is visible one second after its
publish time (the gate is a `<=` comparison). -/
theorem future_publish_time_gate (v : Video) (now : Int)
    (hst : v.state = PublishStateOptions.PUBLISH) (hac : v.active = true)
    (hpt : v.publish_timestamp = some (now + 3600)) :
    v.is_published now = false ∧ v.is_published (now + 3600 + 1) = true := by
  unfold Video.is_published
  rw [hac, hst, hpt]
  simp

/-- C7 witness: evaluated at `now = 100` with publish time 3700. -/
theorem future_publish_time_gate_witness :
    ({ vidPub with publish_timestamp := some 3700 } : Video).is_published 100 = false ∧
    ({ vidPub with publish_timestamp := some 3700 } : Video).is_published 3701 = true :=
  future_publish_time_gate { vidPub with publish_timestamp := some 3700 } 100
    rfl rfl rfl

/-- C9: `get_video_id` exposes the external identifier exactly for
visible records: it returns `video_id` when `is_published` holds and
`none` otherwise. -/
theorem get_video_id_only_when_visible (v : Video) (now : Int) :
    (v.is_published now = true → v.get_video_id now = some v.video_id) ∧
    (v.is_published now = false → v.get_video_id now = none) := by
  unfold Video.get_video_id
  constructor <;> intro h <;> simp [h]

/-- C9 witness: the hidden (kill-switch) record yields no identifier,
evaluated concretely. -/
theorem get_video_id_only_when_visible_witness :
    vidKill.get_video_id 100 = none :=
  (get_video_id_only_when_visible vidKill 100).2 (by decide)

/-- Helper: slug assignment never changes the `state` field. -/
theorem assignIfMissing_state (v : Video) : (assignIfMissing v).state = v.state := by
  unfold assignIfMissing
  cases v.slug with
  | none => rfl
  | some s => by_cases hs : s = "" <;> simp [hs]

/-- Helper: slug assignment never changes `publish_timestamp`. -/
theorem assignIfMissing_publish_timestamp (v : Video) :
    (assignIfMissing v).publish_timestamp = v.publish_timestamp := by
  unfold assignIfMissing
  cases v.slug with
  | none => rfl
  | some s => by_cases hs : s = "" <;> simp [hs]

/-- Helper: `Video.clean` fails (necessarily with
`MissingPublishTimestamp`) exactly on a PUBLISH record with no
timestamp. -/
theorem clean_error_iff (v : Video) :
    v.clean = Except.error ValidationError.MissingPublishTimestamp ↔
      v.state = PublishStateOptions.PUBLISH ∧ v.publish_timestamp = none := by
  unfold Video.clean
  cases hs : v.state <;> cases hpt : v.publish_timestamp <;> simp [hs, hpt]

/-- C3: a write fails with `MissingPublishTimestamp` exactly when the
incoming record has `state = PUBLISH` and no `publish_timestamp`; a
failing write leaves the stored database unchanged (no partial
effect). -/
theorem save_missing_publish_timestamp (db : List Video) (v : Video) :
    ((save db v).2 = some ValidationError.MissingPublishTimestamp ↔
      v.state = PublishStateOptions.PUBLISH ∧ v.publish_timestamp = none) ∧
    ((save db v).2 = some ValidationError.MissingPublishTimestamp →
      (save db v).1 = db) := by
  have hiff : (assignIfMissing v).clean =
      Except.error ValidationError.MissingPublishTimestamp ↔
      (v.state = PublishStateOptions.PUBLISH ∧ v.publish_timestamp = none) := by
    rw [clean_error_iff, assignIfMissing_state, assignIfMissing_publish_timestamp]
  cases hc : (assignIfMissing v).clean with
  | error e =>
    cases e
    have hs2 : (save db v).2 = some ValidationError.MissingPublishTimestamp := by
      simp [save, hc]
    have hs1 : (save db v).1 = db := by simp [save, hc]
    exact ⟨iff_of_true hs2 (hiff.mp hc), fun _ => hs1⟩
  | ok u =>
    have hs2 : (save db v).2 = none := by simp [save, hc]
    have hnot : ¬(v.state = PublishStateOptions.PUBLISH ∧ v.publish_timestamp = none) := by
      intro hcontra
      have habs := hiff.mpr hcontra
      rw [hc] at habs
      exact Except.noConfusion habs
    refine ⟨iff_of_false (by simp [hs2]) hnot, fun habs => ?_⟩
    rw [hs2] at habs
    exact Option.noConfusion habs

/-- C3 witness: saving a PUBLISH record without a timestamp into an
empty store fails with `MissingPublishTimestamp` and stores nothing. -/
theorem save_missing_publish_timestamp_witness :
    (save [] { vidPub with publish_timestamp := none }).2 =
      some ValidationError.MissingPublishTimestamp ∧
    (save [] { vidPub with publish_timestamp := none }).1 = [] := by
  have h := save_missing_publish_timestamp [] { vidPub with publish_timestamp := none }
  have he := h.1.mpr ⟨rfl, rfl⟩
  exact ⟨he, h.2 he⟩

/-- C4: every database reachable through the write path satisfies the
invariant `state = PUBLISH → publish_timestamp ≠ null` — a violating
write is rejected before commit, so no stored record violates it. -/
theorem reachable_publish_invariant (db : List Video) (h : Reachable db) :
    ∀ v ∈ db, v.state = PublishStateOptions.PUBLISH → v.publish_timestamp ≠ none := by
  induction h with
  | empty => intro v hv; cases hv
  | save_step db0 w db' hdb hs ih =>
    subst hs
    intro v hv hst
    simp only [save] at hv
    cases hc : (assignIfMissing w).clean with
    | error e =>
      simp only [hc] at hv
      exact ih v hv hst
    | ok u =>
      simp only [hc] at hv
      simp only [commit, List.mem_append, List.mem_singleton] at hv
      rcases hv with hv | hv
      · exact ih v (List.mem_of_mem_filter hv) hst
      · subst hv
        intro hpt
        have habs := (clean_error_iff _).mpr ⟨hst, hpt⟩
        rw [hc] at habs
        exact Except.noConfusion habs

/-- C4 witness: after one successful write of `vidPub` the stored copy
has a non-null timestamp, by the invariant theorem. -/
theorem reachable_publish_invariant_witness :
    vidPub.publish_timestamp ≠ none := by
  have hreach : Reachable (save [] vidPub).1 :=
    Reachable.save_step [] vidPub (save [] vidPub).1 Reachable.empty rfl
  exact reachable_publish_invariant (save [] vidPub).1 hreach vidPub (by decide) rfl

/-- C5: bulk unpublish sets `active = false` on every selected record,
reports the number of records affected, changes no other field (in
particular `state` and `publish_timestamp` are preserved, so the full
record list still holds them with `state` unchanged), and the
published-only filter afterwards contains none of them. -/
theorem unpublish_selected_spec (qs : List Video) (now : Int) (hne : qs ≠ []) :
    (unpublish_selected qs).2 = qs.length ∧
    (unpublish_selected qs).1.length = qs.length ∧
    List.Forall₂ (fun v w =>
      w.active = false ∧ w.state = v.state ∧
      w.publish_timestamp = v.publish_timestamp ∧ w.id = v.id ∧
      w.title = v.title ∧ w.slug = v.slug ∧ w.video_id = v.video_id ∧
      w.description = v.description ∧ w.created = v.created ∧
      w.updated = v.updated) qs (unpublish_selected qs).1 ∧
    VideoQuerySet.published now (unpublish_selected qs).1 = [] := by
  refine ⟨rfl, by simp [unpublish_selected], ?_, ?_⟩
  · simp only [unpublish_selected]
    rw [List.forall₂_map_right_iff, List.forall₂_same]
    intro v hv
    simp
  · rw [VideoQuerySet.published, List.filter_eq_nil_iff]
    intro a ha
    simp only [unpublish_selected, List.mem_map] at ha
    obtain ⟨v, hv, rfl⟩ := ha
    simp [publishedRowPred]

/-- C5 witness: unpublishing three published records reports count 3
and empties the published-only filter. -/
theorem unpublish_selected_spec_witness :
    (unpublish_selected [vidPub, { vidPub with id := 5, video_id := "p2" },
      { vidPub with id := 6, video_id := "p3" }]).2 = 3 ∧
    VideoQuerySet.published 100
      (unpublish_selected [vidPub, { vidPub with id := 5, video_id := "p2" },
        { vidPub with id := 6, video_id := "p3" }]).1 = [] := by
  have h := unpublish_selected_spec [vidPub, { vidPub with id := 5, video_id := "p2" },
    { vidPub with id := 6, video_id := "p3" }] 100 (by simp)
  exact ⟨h.1, h.2.2.2⟩

/-- C6: the published-only admin view does NOT return exactly the
`published(now)` set: Django's `ModelAdmin.get_queryset` uses the
model's default manager (all videos), so the admin override filters
only on `active=True`; an active DRAFT record is included although it
satisfies neither the `published` filter nor `is_published`.  (The
proxy model's own `published()`-filtering `get_queryset` is never
invoked by the admin.) -/
theorem admin_published_view_includes_draft :
    vidDraft ∈ VideoPublishedProxyAdmin.get_queryset [vidDraft] ∧
    publishedRowPred 100 vidDraft = false ∧
    vidDraft.is_published 100 = false ∧
    vidDraft ∉ VideoPublishedProxy.get_queryset 100 [vidDraft] := by
  refine ⟨?_, by decide, by decide, by decide⟩
  decide

/-- Helper: overwriting `slug` with its current value is the
identity on records. -/
theorem video_update_slug_self (v : Video) (x : Option String) (h : v.slug = x) :
    { v with slug := x } = v := by
  cases v
  subst h
  rfl

/-- Helper: a record whose slug is null or empty gets exactly the
title-derived slug, all other fields untouched. -/
theorem assignIfMissing_fills (u : Video) (hu : u.slug = none ∨ u.slug = some "") :
    assignIfMissing u = { u with slug := some (slugify u.title) } := by
  unfold assignIfMissing
  rcases hu with h | h <;> rw [h]
  simp

/-- Helper: a record with a non-null, non-empty slug is untouched. -/
theorem assignIfMissing_keeps (u : Video) (h1 : u.slug ≠ none) (h2 : u.slug ≠ some "") :
    assignIfMissing u = u := by
  unfold assignIfMissing
  cases hs : u.slug with
  | none => exact absurd hs h1
  | some s =>
    have hne : ¬(s = "") := fun he => h2 (hs.trans (by rw [he]))
    simp [hne]

/-- C8: `assignIfMissing` derives the slug from the title exactly when
the stored slug is null or empty (leaving every other field unchanged),
leaves a present slug untouched, and applying it twice equals applying
it once. -/
theorem assignIfMissing_spec (v : Video) :
    ((v.slug = none ∨ v.slug = some "") →
      (assignIfMissing v).slug = some (slugify v.title) ∧
      (assignIfMissing v).title = v.title ∧
      (assignIfMissing v).state = v.state ∧
      (assignIfMissing v).publish_timestamp = v.publish_timestamp ∧
      (assignIfMissing v).id = v.id ∧
      (assignIfMissing v).video_id = v.video_id ∧
      (assignIfMissing v).active = v.active ∧
      (assignIfMissing v).description = v.description ∧
      (assignIfMissing v).created = v.created ∧
      (assignIfMissing v).updated = v.updated) ∧
    ((v.slug ≠ none ∧ v.slug ≠ some "") → assignIfMissing v = v) ∧
    assignIfMissing (assignIfMissing v) = assignIfMissing v := by
  refine ⟨?_, ?_, ?_⟩
  · intro hmiss
    rw [assignIfMissing_fills v hmiss]
    simp
  · intro h
    exact assignIfMissing_keeps v h.1 h.2
  · by_cases hm : v.slug = none ∨ v.slug = some ""
    · rw [assignIfMissing_fills v hm]
      by_cases hz : slugify v.title = ""
      · rw [assignIfMissing_fills _ (Or.inr (by simp [hz]))]
      · exact assignIfMissing_keeps _ (by simp) (by simp [hz])
    · push_neg at hm
      rw [assignIfMissing_keeps v hm.1 hm.2, assignIfMissing_keeps v hm.1 hm.2]

/-- C8 witness: the spec §8 title yields the normalized slug, and the
second application is a no-op, evaluated concretely. -/
theorem assignIfMissing_spec_witness :
    (assignIfMissing vidNoSlug).slug = some "hello-world-2024" ∧
    assignIfMissing (assignIfMissing vidNoSlug) = assignIfMissing vidNoSlug := by
  have h := assignIfMissing_spec vidNoSlug
  refine ⟨?_, h.2.2⟩
  have h1 := (h.1 (Or.inl rfl)).1
  rw [h1]
  decide

/-- Helper: reversing an ascending integer comparison swaps its
arguments. -/
theorem intCompare_swap (a b : Int) : (intCompare a b).swap = intCompare b a := by
  unfold intCompare
  rcases lt_trichotomy a b with h | h | h
  · have h1 : ¬ b < a := by omega
    simp [h, h1, Ordering.swap]
  · have h1 : ¬ a < b := by omega
    have h2 : ¬ b < a := by omega
    simp [h1, h2, Ordering.swap]
  · have h1 : ¬ a < b := by omega
    simp [h, h1, Ordering.swap]

/-- C10: the base entity's default ordering (`Video.Meta.ordering`)
sorts by `publish_timestamp` descending and breaks ties by `created`
descending, and it differs from the All projection's
`created`-descending ordering on some pair of records. -/
theorem default_ordering_spec (a b : Video) (ta tb : Int)
    (ha : a.publish_timestamp = some ta) (hb : b.publish_timestamp = some tb) :
    (tb < ta → compareBy videoMetaOrdering a b = Ordering.lt) ∧
    (ta < tb → compareBy videoMetaOrdering a b = Ordering.gt) ∧
    (ta = tb → compareBy videoMetaOrdering a b = intCompare b.created a.created) ∧
    (∃ c d : Video, compareBy videoMetaOrdering c d = Ordering.lt ∧
      compareBy videoAllProxyOrdering c d = Ordering.gt) := by
  refine ⟨?_, ?_, ?_, ?_⟩
  · intro h
    have h1 : ¬ ta < tb := by omega
    simp [videoMetaOrdering, compareBy, orderFieldVal, optIntCompare, ha, hb,
      intCompare, h, h1, Ordering.swap]
  · intro h
    have h1 : ¬ tb < ta := by omega
    simp [videoMetaOrdering, compareBy, orderFieldVal, optIntCompare, ha, hb,
      intCompare, h, h1, Ordering.swap]
  · intro h
    subst h
    have hsw : intCompare ta ta = Ordering.eq := by
      unfold intCompare
      simp
    simp only [videoMetaOrdering, compareBy, orderFieldVal, optIntCompare, ha, hb, hsw]
    rw [intCompare_swap]
    by_cases h2 : intCompare b.created a.created = Ordering.eq <;>
      simp [h2, Ordering.swap]
  · refine ⟨{ vidPub with publish_timestamp := some 10, created := 1 },
      { vidPub with publish_timestamp := some 5, created := 2 }, by decide, by decide⟩

/-- C10 witness: a record published later sorts first under the
default ordering, evaluated at concrete timestamps. -/
theorem default_ordering_spec_witness :
    compareBy videoMetaOrdering { vidPub with publish_timestamp := some 60 } vidPub =
      Ordering.lt :=
  (default_ordering_spec { vidPub with publish_timestamp := some 60 } vidPub 60 50
    rfl rfl).1 (by omega)
